import Mathlib

/-!
Verification of the Pionex dashboard backend.

A shallow embedding, in Lean 4, of the signing and routing logic of a small
signed-request proxy written in Python.  The repository carries three copies of
the same logic:

* `server.py` — a Flask app (namespace `Server` below);
* `api/index.py` — a serverless function using `urllib` (namespace `ApiIndex`);
* `api/positions.py` — a single-route serverless function (namespace `Positions`).

Side effects are made explicit:

* the wall clock (`time.time() * 1000`, truncated to milliseconds) is a list of
  `Nat` readings; each call to the clock consumes the head of the list;
* the upstream exchange is an oracle `String → UpstreamResult` from the request
  URL to either an HTTP response (status plus parsed JSON body) or a
  network-level failure; every function returns the list of upstream requests
  it issued, so "no upstream call" is the statement that this list is empty;
* JSON values are the `Json` inductive below; the body of an HTTP response is
  identified with its parsed JSON value, and where the Python code uses the raw
  response text (`e.read().decode()`), the model uses the compact serialization
  `jsonCompact` of that value.

`hmacSha256Hex` is a genuine implementation of HMAC-SHA256 over byte lists
(bytes are `Nat` values reduced mod 2^8, words mod 2^32), matching
`hmac.new(secret, msg, hashlib.sha256).hexdigest()`.
-/

/-! ## JSON values -/

/-- A JSON value, as produced by Python's `json` module (numbers restricted to
integers, which is all this program ever constructs). -/
inductive Json where
  | null
  | bool (b : Bool)
  | num (n : Int)
  | str (s : String)
  | arr (elems : List Json)
  | obj (fields : List (String × Json))

mutual
/-- Structural equality of JSON values (Python `==` on parsed JSON, restricted
to values of matching shape; this program only ever compares strings). -/
def jeq : Json → Json → Bool
  | .null, .null => true
  | .bool a, .bool b => a == b
  | .num a, .num b => a == b
  | .str a, .str b => a == b
  | .arr xs, .arr ys => jeqList xs ys
  | .obj fs, .obj gs => jeqFields fs gs
  | _, _ => false

def jeqList : List Json → List Json → Bool
  | [], [] => true
  | a :: as, b :: bs => jeq a b && jeqList as bs
  | _, _ => false

def jeqFields : List (String × Json) → List (String × Json) → Bool
  | [], [] => true
  | (k, v) :: fs, (l, w) :: gs => k == l && jeq v w && jeqFields fs gs
  | _, _ => false
end

/-- Python truthiness of a JSON value (`bool(x)`): `None`, `False`, `0`, `""`,
`[]` and `{}` are falsy, everything else truthy. -/
def truthy : Json → Bool
  | .null => false
  | .bool b => b
  | .num n => n != 0
  | .str s => s != ""
  | .arr xs => !xs.isEmpty
  | .obj fs => !fs.isEmpty

/-- First binding of `key` in an association list, i.e. `dict.get(key)` on a
Python dict rendered as its (unique-keyed) list of items. -/
def lookupField : List (String × Json) → String → Option Json
  | [], _ => none
  | (k, v) :: fs, key => if k = key then some v else lookupField fs key

/-- Python `dict.get(key, dflt)`. -/
def jget (data : List (String × Json)) (key : String) (dflt : Json) : Json :=
  (lookupField data key).getD dflt

/-- Model of `response_body.get(key)` where `response_body` is a parsed JSON value:
`None` when the value is not an object or lacks the key. -/
def pyGet (j : Json) (key : String) : Json :=
  match j with
  | .obj fs => (lookupField fs key).getD Json.null
  | _ => Json.null

/-! ## Compact JSON serialization

`json.dumps(x, separators=(',', ':'))` — and, for upstream bodies, the wire
text a JSON value was parsed from.  Python's default `ensure_ascii=True`
escapes non-ASCII characters as `\uXXXX` (surrogate pairs above the BMP). -/

/-- Lowercase hexadecimal digit. -/
def hexDigit (n : Nat) : Char := if n < 10 then Char.ofNat (48 + n) else Char.ofNat (87 + n)

/-- Four lowercase hex digits, most significant first. -/
def hex4 (n : Nat) : String :=
  String.mk [hexDigit (n / 4096 % 16), hexDigit (n / 256 % 16), hexDigit (n / 16 % 16),
             hexDigit (n % 16)]

/-- JSON escape of one character, as `json.dumps` (default `ensure_ascii`). -/
def escChar (c : Char) : String :=
  if c = '"' then "\\\""
  else if c = '\\' then "\\\\"
  else if c.toNat = 10 then "\\n"
  else if c.toNat = 13 then "\\r"
  else if c.toNat = 9 then "\\t"
  else if c.toNat = 8 then "\\b"
  else if c.toNat = 12 then "\\f"
  else if c.toNat < 32 then "\\u" ++ hex4 c.toNat
  else if c.toNat < 128 then String.singleton c
  else if c.toNat < 65536 then "\\u" ++ hex4 c.toNat
  else "\\u" ++ hex4 (55296 + (c.toNat - 65536) / 1024) ++
       "\\u" ++ hex4 (56320 + (c.toNat - 65536) % 1024)

/-- JSON string literal: quotes around the escaped characters. -/
def escString (s : String) : String :=
  "\"" ++ String.join (s.data.map escChar) ++ "\""

mutual
/-- Compact JSON serialization: `json.dumps(x, separators=(',', ':'))`. -/
def jsonCompact : Json → String
  | .null => "null"
  | .bool true => "true"
  | .bool false => "false"
  | .num n => toString n
  | .str s => escString s
  | .arr xs => "[" ++ jsonCompactList xs ++ "]"
  | .obj fs => "\x7b" ++ jsonCompactFields fs ++ "\x7d"

def jsonCompactList : List Json → String
  | [] => ""
  | [x] => jsonCompact x
  | x :: y :: xs => jsonCompact x ++ "," ++ jsonCompactList (y :: xs)

def jsonCompactFields : List (String × Json) → String
  | [] => ""
  | [(k, v)] => escString k ++ ":" ++ jsonCompact v
  | (k, v) :: g :: gs => escString k ++ ":" ++ jsonCompact v ++ "," ++ jsonCompactFields (g :: gs)
end

/-! ## SHA-256 and HMAC-SHA256

A byte is a `Nat` below 2^8, a word a `Nat` below 2^32; `w32` reduces after
every arithmetic step that may overflow (FIPS 180-4). -/

/-- Truncation to a 32-bit word. -/
def w32 (n : Nat) : Nat := n % 4294967296

/-- Right rotation of a 32-bit word by `b` bits. -/
def rotr (b n : Nat) : Nat := w32 ((n >>> b) ||| (n <<< (32 - b)))

/-- The 64 SHA-256 round constants (FIPS 180-4 §4.2.2, written in decimal). -/
def sha256K : List Nat :=
  [1116352408, 1899447441, 3049323471, 3921009573, 961987163, 1508970993,
   2453635748, 2870763221, 3624381080, 310598401, 607225278, 1426881987,
   1925078388, 2162078206, 2614888103, 3248222580, 3835390401, 4022224774,
   264347078, 604807628, 770255983, 1249150122, 1555081692, 1996064986,
   2554220882, 2821834349, 2952996808, 3210313671, 3336571891, 3584528711,
   113926993, 338241895, 666307205, 773529912, 1294757372, 1396182291,
   1695183700, 1986661051, 2177026350, 2456956037, 2730485921, 2820302411,
   3259730800, 3345764771, 3516065817, 3600352804, 4094571909, 275423344,
   430227734, 506948616, 659060556, 883997877, 958139571, 1322822218,
   1537002063, 1747873779, 1955562222, 2024104815, 2227730452, 2361852424,
   2428436474, 2756734187, 3204031479, 3329325298]

/-- The eight-word SHA-256 working state. -/
structure Hash8 where
  a : Nat
  b : Nat
  c : Nat
  d : Nat
  e : Nat
  f : Nat
  g : Nat
  h : Nat

/-- Initial hash value (FIPS 180-4 §5.3.3, written in decimal). -/
def sha256H0 : Hash8 :=
  ⟨1779033703, 3144134277, 1013904242, 2773480762,
   1359893119, 2600822924, 528734635, 1541459225⟩

def bigSigma0 (x : Nat) : Nat := rotr 2 x ^^^ rotr 13 x ^^^ rotr 22 x
def bigSigma1 (x : Nat) : Nat := rotr 6 x ^^^ rotr 11 x ^^^ rotr 25 x
def smallSigma0 (x : Nat) : Nat := rotr 7 x ^^^ rotr 18 x ^^^ (x >>> 3)
def smallSigma1 (x : Nat) : Nat := rotr 17 x ^^^ rotr 19 x ^^^ (x >>> 10)

/-- The `Ch(x, y, z)` function; the complement of `x` is taken within 32 bits. -/
def chFn (x y z : Nat) : Nat := (x &&& y) ^^^ (w32 (4294967295 - x) &&& z)

def majFn (x y z : Nat) : Nat := (x &&& y) ^^^ (x &&& z) ^^^ (y &&& z)

/-- Padding: a `1` bit, zeros to 56 mod 64 bytes, then the bit length on
64 bits big-endian. -/
def sha256Pad (msg : List Nat) : List Nat :=
  let len := msg.length
  let zeros := (120 - (len + 1) % 64) % 64
  msg ++ [128] ++ List.replicate zeros 0 ++
    (List.range 8).map (fun i => (len * 8) >>> (8 * (7 - i)) % 256)

/-- Split into 64-byte blocks. -/
def chunk64 : List Nat → List (List Nat)
  | [] => []
  | x :: xs => ((x :: xs).take 64) :: chunk64 ((x :: xs).drop 64)
termination_by l => l.length
decreasing_by simp [List.length_drop]; omega

/-- The 16 big-endian words of a 64-byte block. -/
def blockWords (block : List Nat) : List Nat :=
  (List.range 16).map fun i =>
    (block.getD (4 * i) 0) * 16777216 + (block.getD (4 * i + 1) 0) * 65536 +
    (block.getD (4 * i + 2) 0) * 256 + block.getD (4 * i + 3) 0

/-- Extend 16 words to the 64-word message schedule. -/
def extendWords (ws : List Nat) : List Nat :=
  (List.range 48).foldl
    (fun ws _ =>
      let n := ws.length
      ws ++ [w32 (smallSigma1 (ws.getD (n - 2) 0) + ws.getD (n - 7) 0 +
                  smallSigma0 (ws.getD (n - 15) 0) + ws.getD (n - 16) 0)])
    ws

/-- One round of the compression function on `(k, w)`. -/
def compressStep (st : Hash8) (kw : Nat × Nat) : Hash8 :=
  let t1 := w32 (st.h + bigSigma1 st.e + chFn st.e st.f st.g + kw.1 + kw.2)
  let t2 := w32 (bigSigma0 st.a + majFn st.a st.b st.c)
  ⟨w32 (t1 + t2), st.a, st.b, st.c, w32 (st.d + t1), st.e, st.f, st.g⟩

/-- Compress one block and add the result to the chaining state. -/
def processBlock (st : Hash8) (block : List Nat) : Hash8 :=
  let ws := extendWords (blockWords block)
  let f := (List.zip sha256K ws).foldl compressStep st
  ⟨w32 (st.a + f.a), w32 (st.b + f.b), w32 (st.c + f.c), w32 (st.d + f.d),
   w32 (st.e + f.e), w32 (st.f + f.f), w32 (st.g + f.g), w32 (st.h + f.h)⟩

/-- Big-endian bytes of a 32-bit word. -/
def word4 (n : Nat) : List Nat := [n >>> 24 % 256, n >>> 16 % 256, n >>> 8 % 256, n % 256]

/-- SHA-256 digest (32 bytes) of a byte list. -/
def sha256 (msg : List Nat) : List Nat :=
  let f := (chunk64 (sha256Pad msg)).foldl processBlock sha256H0
  word4 f.a ++ word4 f.b ++ word4 f.c ++ word4 f.d ++
  word4 f.e ++ word4 f.f ++ word4 f.g ++ word4 f.h

/-- Lowercase hex encoding of a byte list (`.hexdigest()`). -/
def bytesToHex (bs : List Nat) : String :=
  String.mk (bs.foldr (fun b acc => hexDigit (b / 16) :: hexDigit (b % 16) :: acc) [])

/-- UTF-8 encoding of one character. -/
def utf8EncodeCharNat (c : Char) : List Nat :=
  let n := c.toNat
  if n < 128 then [n]
  else if n < 2048 then [192 + n / 64, 128 + n % 64]
  else if n < 65536 then [224 + n / 4096, 128 + n / 64 % 64, 128 + n % 64]
  else [240 + n / 262144, 128 + n / 4096 % 64, 128 + n / 64 % 64, 128 + n % 64]

/-- UTF-8 bytes of a string (`s.encode('utf-8')`). -/
def utf8Bytes (s : String) : List Nat := (s.data.map utf8EncodeCharNat).flatten

/-- HMAC-SHA256 over byte lists (RFC 2104 with a 64-byte block). -/
def hmacSha256 (key msg : List Nat) : List Nat :=
  let key := if key.length > 64 then sha256 key else key
  let key := key ++ List.replicate (64 - key.length) 0
  let ipad := key.map (fun b => b ^^^ 54)
  let opad := key.map (fun b => b ^^^ 92)
  sha256 (opad ++ sha256 (ipad ++ msg))

/-- Hex digest `hmac.new(key.encode('utf-8'), msg.encode('utf-8'), hashlib.sha256).hexdigest()`. -/
def hmacSha256Hex (key msg : String) : String :=
  bytesToHex (hmacSha256 (utf8Bytes key) (utf8Bytes msg))

/-! ## Canonical query strings

`sorted(params.items())` on a Python dict: the items are `(key, value)` tuples
with pairwise-distinct keys, so the sort orders them by key, comparing strings
lexicographically by code point.  `lexLe` is that comparison; `sortParams` is
the sort (any stable sort agrees on unique keys). -/

/-- A query parameter: key and value, `none` rendering Python `None`.  Values
reaching the f-string `f"{key}={value}"` are kept as their rendered text. -/
abbrev Param := String × Option String

/-- Lexicographic (by code point) comparison of character lists: Python `<=`
on strings. -/
def lexLe : List Char → List Char → Bool
  | [], _ => true
  | _ :: _, [] => false
  | a :: as, b :: bs =>
    if a.toNat < b.toNat then true
    else if b.toNat < a.toNat then false
    else lexLe as bs

/-- Python `a <= b` on strings. -/
def strLe (a b : String) : Bool := lexLe a.data b.data

/-- Key order used by `sorted(params.items())`. -/
def paramLe (a b : Param) : Prop := strLe a.1 b.1 = true

instance : DecidableRel paramLe := fun a b =>
  inferInstanceAs (Decidable (strLe a.1 b.1 = true))

theorem lexLe_total : ∀ as bs : List Char, lexLe as bs = true ∨ lexLe bs as = true
  | [], _ => Or.inl rfl
  | _ :: _, [] => Or.inr rfl
  | a :: as, b :: bs => by
    rcases Nat.lt_trichotomy a.toNat b.toNat with h | h | h
    · left; simp [lexLe, h]
    · have h2 : ¬ a.toNat < b.toNat := by omega
      have h3 : ¬ b.toNat < a.toNat := by omega
      rcases lexLe_total as bs with h4 | h4
      · left; simp [lexLe, h2, h3, h4]
      · right; simp [lexLe, h2, h3, h4]
    · right; simp [lexLe, h]

theorem lexLe_trans :
    ∀ as bs cs : List Char, lexLe as bs = true → lexLe bs cs = true → lexLe as cs = true
  | [], _, _ => by simp [lexLe]
  | _ :: _, [], _ => by simp [lexLe]
  | _ :: _, _ :: _, [] => by simp [lexLe]
  | a :: as, b :: bs, c :: cs => by
    intro h1 h2
    simp only [lexLe] at h1 h2 ⊢
    rcases Nat.lt_trichotomy a.toNat c.toNat with h | h | h
    · simp [h]
    · by_cases hab : a.toNat < b.toNat
      · have hcb : c.toNat < b.toNat := by omega
        simp [show ¬ b.toNat < c.toNat by omega, hcb] at h2
      · by_cases hba : b.toNat < a.toNat
        · simp [hab, hba] at h1
        · have h1' : lexLe as bs = true := by simpa [hab, hba] using h1
          have h2' : lexLe bs cs = true := by
            simpa [show ¬ b.toNat < c.toNat by omega, show ¬ c.toNat < b.toNat by omega] using h2
          simp [show ¬ a.toNat < c.toNat by omega, show ¬ c.toNat < a.toNat by omega]
          exact lexLe_trans as bs cs h1' h2'
    · by_cases hab : a.toNat < b.toNat
      · by_cases hbc : b.toNat < c.toNat
        · omega
        · by_cases hcb : c.toNat < b.toNat
          · simp [hbc, hcb] at h2
          · omega
      · by_cases hba : b.toNat < a.toNat
        · simp [hab, hba] at h1
        · by_cases hbc : b.toNat < c.toNat
          · omega
          · by_cases hcb : c.toNat < b.toNat
            · simp [hbc, hcb] at h2
            · omega

theorem lexLe_antisymm :
    ∀ as bs : List Char, lexLe as bs = true → lexLe bs as = true → as = bs
  | [], [] => by simp
  | [], _ :: _ => by intro _ h2; simp [lexLe] at h2
  | _ :: _, [] => by intro h1 _; simp [lexLe] at h1
  | a :: as, b :: bs => by
    intro h1 h2
    by_cases hab : a.toNat < b.toNat
    · simp [lexLe, show ¬ b.toNat < a.toNat by omega, hab] at h2
    · by_cases hba : b.toNat < a.toNat
      · simp [lexLe, hab, hba] at h1
      · have hc : a = b := by
          have hn : a.toNat = b.toNat := by omega
          simp only [Char.toNat] at hn
          exact Char.eq_of_val_eq (UInt32.ext hn)
        have h1' : lexLe as bs = true := by simpa [lexLe, hab, hba] using h1
        have h2' : lexLe bs as = true := by
          simpa [lexLe, hab, hba, hc] using h2
        rw [hc, lexLe_antisymm as bs h1' h2']

theorem strLe_antisymm {a b : String} (h1 : strLe a b = true) (h2 : strLe b a = true) :
    a = b :=
  String.ext (lexLe_antisymm _ _ h1 h2)

instance : IsTotal Param paramLe := ⟨fun a b => lexLe_total a.1.data b.1.data⟩

instance : IsTrans Param paramLe := ⟨fun _ _ _ h1 h2 => lexLe_trans _ _ _ h1 h2⟩

/-- Model of `sorted(params.items())`: sort the items by key (keys are pairwise
distinct, so the value components never matter; insertion sort is stable, as
Python's sort is). -/
def sortParams (params : List Param) : List Param :=
  List.insertionSort paramLe params

/-- The canonical query string of `pionex_request`: iterate the sorted items,
skip parameters whose value is `None`, render `f"{key}={value}"`, join the
parts with `"&"`. -/
def buildQueryString (params : List Param) : String :=
  String.intercalate "&"
    ((sortParams params).filterMap fun kv => kv.2.map fun v => kv.1 ++ "=" ++ v)

/-! ## Common request plumbing -/

/-- The constant `PIONEX_API_URL`. -/
def PIONEX_API_URL : String := "https://api.pionex.com"

/-- The two credential environment variables (`os.environ.get(..., "")`:
an unset variable reads as the empty string). -/
structure Env where
  apiKey : String
  apiSecret : String

/-- An upstream HTTP request as this program issues it: the URL (which carries
the query string and timestamp) and the authentication headers.  The constant
`Content-Type: application/json` header is not recorded. -/
structure HttpRequest where
  url : String
  method : String
  keyHeader : String
  signatureHeader : String

/-- What the upstream exchange does with one request: an HTTP response with a
status code and a JSON body, or a network-level failure (timeout, DNS, ...)
with the exception's message. -/
inductive UpstreamResult where
  | response (status : Nat) (body : Json)
  | netError (msg : String)

/-- Body handling of `server.py`'s `pionex_request`: `body_str = ""`, replaced
by `json.dumps(body, separators=(',', ':'))` when `body` is truthy (a present,
non-empty dict). -/
def pyBodyStr : Option (List (String × Json)) → String
  | none => ""
  | some fields => if fields.isEmpty then "" else jsonCompact (Json.obj fields)

/-! ## `server.py` (Flask app) -/

namespace Server

/-- The `generate_signature` of `server.py`: reads the clock once, builds
`path?query&timestamp=ts` (or `path?timestamp=ts` when the query string is
empty), prefixes the method, appends the body string when non-empty, and
returns the hex HMAC-SHA256 under the configured secret together with the
timestamp used. -/
def generate_signature (secret : String) (clock : List Nat)
    (method path query_string body : String) : String × Nat × List Nat :=
  let timestamp := clock.headD 0
  let rest := clock.tail
  let path_url :=
    if query_string ≠ "" then
      path ++ "?" ++ query_string ++ "&timestamp=" ++ toString timestamp
    else
      path ++ "?timestamp=" ++ toString timestamp
  let sign_str := method ++ path_url
  let sign_str := if body ≠ "" then sign_str ++ body else sign_str
  (hmacSha256Hex secret sign_str, timestamp, rest)

/-- The `pionex_request` of `server.py` (the `requests` variant): short-circuits on
missing credentials; builds the canonical query string; signs; issues the call
for GET/POST/DELETE and returns `response.json()` — the parsed body regardless
of the HTTP status (`requests` does not raise on non-2xx); wraps a
network-level exception's message in `{"error": str(e)}`. -/
def pionex_request (env : Env) (clock : List Nat) (upstream : String → UpstreamResult)
    (method endpoint : String) (params : List Param)
    (body : Option (List (String × Json))) : Json × List Nat × List HttpRequest :=
  if env.apiKey = "" ∨ env.apiSecret = "" then
    (Json.obj [("error", Json.str "API credentials not configured")], clock, [])
  else
    let query_string := buildQueryString params
    let body_str := pyBodyStr body
    let sg := generate_signature env.apiSecret clock method endpoint query_string body_str
    let signature := sg.1
    let timestamp := sg.2.1
    let clock := sg.2.2
    let url :=
      if query_string ≠ "" then
        PIONEX_API_URL ++ endpoint ++ "?" ++ query_string ++ "&timestamp=" ++ toString timestamp
      else
        PIONEX_API_URL ++ endpoint ++ "?timestamp=" ++ toString timestamp
    let req : HttpRequest := ⟨url, method, env.apiKey, signature⟩
    if method = "GET" ∨ method = "POST" ∨ method = "DELETE" then
      let result :=
        match upstream url with
        | .response _status bodyJson => bodyJson
        | .netError msg => Json.obj [("error", Json.str msg)]
      (result, clock, [req])
    else
      (Json.obj [("error", Json.str ("Unsupported method: " ++ method))], clock, [])

/-- Route `GET /api/health`: reports whether both credentials are configured
(`bool(PIONEX_API_KEY and PIONEX_API_SECRET)`); touches nothing else, so the
issued-requests component is empty. -/
def health_check (env : Env) : Json × List HttpRequest :=
  (Json.obj [("status", Json.str "ok"),
             ("configured", Json.bool (env.apiKey != "" && env.apiSecret != ""))], [])

/-! ### The manual bot-data store

`MANUAL_BOT_DATA` is a process-global Python dict keyed by the posted `name`
value.  It is modelled as an insertion-ordered association list with
pairwise-distinct keys (the dict invariant); assignment replaces in place,
deletion removes the (unique) matching entry.  Keys are compared with `jeq`
(structural equality — every name this program handles is a string). -/

/-- The store: insertion-ordered `(key, record)` entries. -/
abbrev BotStore := List (Json × List (String × Json))

/-- Lookup `MANUAL_BOT_DATA[key]` (also the `key in MANUAL_BOT_DATA` test). -/
def storeGet : BotStore → Json → Option (List (String × Json))
  | [], _ => none
  | (k, v) :: rest, key => if jeq k key then some v else storeGet rest key

/-- Assignment `MANUAL_BOT_DATA[key] = record`: replace in place, else append.  (A Python
dict keeps the original key object on update; the key being structurally equal,
storing the new one is indistinguishable.) -/
def storeSet : BotStore → Json → List (String × Json) → BotStore
  | [], key, v => [(key, v)]
  | (k, w) :: rest, key, v =>
    if jeq k key then (key, v) :: rest else (k, w) :: storeSet rest key v

/-- Deletion `del MANUAL_BOT_DATA[key]`. -/
def storeDel : BotStore → Json → BotStore
  | [], _ => []
  | (k, w) :: rest, key => if jeq k key then rest else (k, w) :: storeDel rest key

/-- Model of `list(MANUAL_BOT_DATA.values())`, each record a JSON object. -/
def botsOf (store : BotStore) : List Json := store.map fun e => Json.obj e.2

/-- Status code and JSON body of a Flask route's response. -/
structure RouteResult where
  status : Nat
  body : Json

/-- The record `update_bot` stores: exactly these ten fields, in this order,
each absent payload field replaced by its default, `updatedAt` stamped with the
current time in milliseconds. -/
def mkBotRecord (data : List (String × Json)) (bot_name : Json) (now : Nat) :
    List (String × Json) :=
  [("name", bot_name),
   ("pair", jget data "pair" (Json.str "")),
   ("leverage", jget data "leverage" (Json.num 1)),
   ("investment", jget data "investment" (Json.num 0)),
   ("profit", jget data "profit" (Json.num 0)),
   ("profitPercent", jget data "profitPercent" (Json.num 0)),
   ("lastPrice", jget data "lastPrice" (Json.num 0)),
   ("markPrice", jget data "markPrice" (Json.num 0)),
   ("liqPrice", jget data "liqPrice" Json.null),
   ("updatedAt", Json.num (now : Int))]

/-- Route `GET /api/bots`. -/
def get_bots (store : BotStore) : RouteResult :=
  ⟨200, Json.obj [("result", Json.bool true),
                  ("data", Json.obj [("bots", Json.arr (botsOf store))])]⟩

/-- Route `POST /api/bots`: `data.get("name")` falsy (absent, `None`, `""`, `0`, ...)
is a 400 client error and leaves the store untouched; otherwise upsert the
record under the name key. -/
def update_bot (store : BotStore) (now : Nat) (data : List (String × Json)) :
    BotStore × RouteResult :=
  let bot_name := (lookupField data "name").getD Json.null
  if truthy bot_name then
    let record := mkBotRecord data bot_name now
    (storeSet store bot_name record,
     ⟨200, Json.obj [("result", Json.bool true), ("data", Json.obj record)]⟩)
  else
    (store, ⟨400, Json.obj [("error", Json.str "Bot name required")]⟩)

/-- Route `DELETE /api/bots/<bot_name>`: the path component is always a string. -/
def delete_bot (store : BotStore) (bot_name : String) : BotStore × RouteResult :=
  match storeGet store (Json.str bot_name) with
  | some _ => (storeDel store (Json.str bot_name),
               ⟨200, Json.obj [("result", Json.bool true)]⟩)
  | none => (store, ⟨404, Json.obj [("error", Json.str "Bot not found")]⟩)

/-- The ten field names of a stored bot record, in the order `update_bot`
writes them. -/
def botFieldNames : List String :=
  ["name", "pair", "leverage", "investment", "profit", "profitPercent",
   "lastPrice", "markPrice", "liqPrice", "updatedAt"]

/-- A well-formed stored record: exactly the ten fields, and its `name` field
is its key in the store. -/
def WFrecord (k : Json) (r : List (String × Json)) : Prop :=
  r.map Prod.fst = botFieldNames ∧ lookupField r "name" = some k

/-- The store invariant: every entry is well-formed. -/
def storeWF (s : BotStore) : Prop := ∀ e ∈ s, WFrecord e.1 e.2

/-- The Python-dict invariant: keys are pairwise distinct. -/
def keysNodup (s : BotStore) : Prop := s.Pairwise fun a b => jeq a.1 b.1 = false

/-- How many entries of the store carry the given key. -/
def countKey (s : BotStore) (k : Json) : Nat :=
  (s.filter fun e => jeq e.1 k).length

end Server

/-! ## `api/index.py` (serverless function, `urllib`) -/

namespace ApiIndex

/-- The `generate_signature` of `api/index.py` — textually the same algorithm as
`server.py`'s. -/
def generate_signature (secret : String) (clock : List Nat)
    (method path query_string body : String) : String × Nat × List Nat :=
  let timestamp := clock.headD 0
  let rest := clock.tail
  let path_url :=
    if query_string ≠ "" then
      path ++ "?" ++ query_string ++ "&timestamp=" ++ toString timestamp
    else
      path ++ "?timestamp=" ++ toString timestamp
  let sign_str := method ++ path_url
  let sign_str := if body ≠ "" then sign_str ++ body else sign_str
  (hmacSha256Hex secret sign_str, timestamp, rest)

/-- The `pionex_request` of `api/index.py` (the `urllib` variant, no body
parameter): `urlopen` returns the parsed JSON body on a 2xx status and raises
`HTTPError` otherwise, which is wrapped as
`{"error": f"HTTP {code}: {body_text}", "result": False}`; any other exception
becomes `{"error": str(e), "result": False}`.  (Redirect statuses, which
`urllib` follows internally, are treated as errors here; the exchange API does
not redirect.) -/
def pionex_request (env : Env) (clock : List Nat) (upstream : String → UpstreamResult)
    (method endpoint : String) (params : List Param) : Json × List Nat × List HttpRequest :=
  if env.apiKey = "" ∨ env.apiSecret = "" then
    (Json.obj [("error", Json.str "API credentials not configured"),
               ("result", Json.bool false)], clock, [])
  else
    let query_string := buildQueryString params
    let sg := generate_signature env.apiSecret clock method endpoint query_string ""
    let signature := sg.1
    let timestamp := sg.2.1
    let clock := sg.2.2
    let url :=
      if query_string ≠ "" then
        PIONEX_API_URL ++ endpoint ++ "?" ++ query_string ++ "&timestamp=" ++ toString timestamp
      else
        PIONEX_API_URL ++ endpoint ++ "?timestamp=" ++ toString timestamp
    let req : HttpRequest := ⟨url, method, env.apiKey, signature⟩
    let result :=
      match upstream url with
      | .response status bodyJson =>
        if 200 ≤ status ∧ status < 300 then bodyJson
        else Json.obj [("error",
                        Json.str ("HTTP " ++ toString status ++ ": " ++ jsonCompact bodyJson)),
                       ("result", Json.bool false)]
      | .netError msg => Json.obj [("error", Json.str msg), ("result", Json.bool false)]
    (result, clock, [req])

/-- The `handler` route dispatcher of `api/index.py`: status code and response
body per path (the body is returned as its JSON value; `json.dumps` at the
transport boundary is out of scope).  The OPTIONS preflight returns the empty
body `""`. -/
def handler (env : Env) (clock : List Nat) (upstream : String → UpstreamResult)
    (path method : String) : (Nat × Json) × List Nat × List HttpRequest :=
  if method = "OPTIONS" then
    ((200, Json.str ""), clock, [])
  else if path = "/api" ∨ path = "/api/" ∨ path = "/api/health" then
    ((200, Json.obj [("status", Json.str "ok"),
                     ("configured", Json.bool (env.apiKey != "" && env.apiSecret != "")),
                     ("result", Json.bool true)]), clock, [])
  else if path = "/api/futures/balance" then
    let r := pionex_request env clock upstream "GET" "/api/v1/account/balances"
      [("type", some "PERP")]
    ((if truthy (pyGet r.1 "result") then 200 else 400, r.1), r.2)
  else if path = "/api/futures/positions" then
    let r := pionex_request env clock upstream "GET" "/api/v1/futures/positions" []
    ((if truthy (pyGet r.1 "result") then 200 else 400, r.1), r.2)
  else if path = "/api/balance" then
    let r := pionex_request env clock upstream "GET" "/api/v1/account/balances" []
    ((if truthy (pyGet r.1 "result") then 200 else 400, r.1), r.2)
  else if path = "/api/balances" then
    let spot := pionex_request env clock upstream "GET" "/api/v1/account/balances"
      [("type", some "SPOT")]
    let perp := pionex_request env spot.2.1 upstream "GET" "/api/v1/account/balances"
      [("type", some "PERP")]
    ((200, Json.obj [("result", Json.bool true), ("spot", spot.1), ("futures", perp.1)]),
     perp.2.1, spot.2.2 ++ perp.2.2)
  else if path = "/api/futures/orders" then
    let r := pionex_request env clock upstream "GET" "/api/v1/futures/openOrders" []
    ((if truthy (pyGet r.1 "result") then 200 else 400, r.1), r.2)
  else if path = "/api/test" then
    ((200, Json.obj [("result", Json.bool true),
                     ("message", Json.str "API is working"),
                     ("has_key", Json.bool (env.apiKey != "")),
                     ("has_secret", Json.bool (env.apiSecret != "")),
                     ("key_preview",
                      if env.apiKey != "" then Json.str (env.apiKey.take 8 ++ "...")
                      else Json.str "not set")]), clock, [])
  else
    ((404, Json.obj [("error", Json.str "Not found"), ("result", Json.bool false)]), clock, [])

end ApiIndex

/-! ## `api/positions.py` (serverless function, one GET route) -/

namespace Positions

/-- The `generate_signature` of `api/positions.py` — same algorithm, no body
parameter. -/
def generate_signature (secret : String) (clock : List Nat)
    (method path query_string : String) : String × Nat × List Nat :=
  let timestamp := clock.headD 0
  let rest := clock.tail
  let path_url :=
    if query_string ≠ "" then
      path ++ "?" ++ query_string ++ "&timestamp=" ++ toString timestamp
    else
      path ++ "?timestamp=" ++ toString timestamp
  let sign_str := method ++ path_url
  (hmacSha256Hex secret sign_str, timestamp, rest)

/-- The `pionex_request` of `api/positions.py`: as `api/index.py`'s but the method
is fixed to `"GET"` (and the timeout is 15 rather than 10 time units, which
the model does not observe). -/
def pionex_request (env : Env) (clock : List Nat) (upstream : String → UpstreamResult)
    (endpoint : String) (params : List Param) : Json × List Nat × List HttpRequest :=
  if env.apiKey = "" ∨ env.apiSecret = "" then
    (Json.obj [("error", Json.str "API credentials not configured"),
               ("result", Json.bool false)], clock, [])
  else
    let query_string := buildQueryString params
    let sg := generate_signature env.apiSecret clock "GET" endpoint query_string
    let signature := sg.1
    let timestamp := sg.2.1
    let clock := sg.2.2
    let url :=
      if query_string ≠ "" then
        PIONEX_API_URL ++ endpoint ++ "?" ++ query_string ++ "&timestamp=" ++ toString timestamp
      else
        PIONEX_API_URL ++ endpoint ++ "?timestamp=" ++ toString timestamp
    let req : HttpRequest := ⟨url, "GET", env.apiKey, signature⟩
    let result :=
      match upstream url with
      | .response status bodyJson =>
        if 200 ≤ status ∧ status < 300 then bodyJson
        else Json.obj [("error",
                        Json.str ("HTTP " ++ toString status ++ ": " ++ jsonCompact bodyJson)),
                       ("result", Json.bool false)]
      | .netError msg => Json.obj [("error", Json.str msg), ("result", Json.bool false)]
    (result, clock, [req])

end Positions

/-! ## Spec-side descriptions used in the claim statements -/

/-- The signed path-url as the spec words it: `path` followed by
`?{query}&timestamp={ts}` when the query string is non-empty, and by
`?timestamp={ts}` when it is empty. -/
def signedPathUrl (path query : String) (ts : Nat) : String :=
  if query = "" then path ++ "?timestamp=" ++ toString ts
  else path ++ "?" ++ query ++ "&timestamp=" ++ toString ts

/-- The final request URL: the fixed base, the endpoint, and the same
query-and-timestamp part as the signed path-url. -/
def requestUrl (endpoint query : String) (ts : Nat) : String :=
  PIONEX_API_URL ++ signedPathUrl endpoint query ts

theorem str_append_empty (s : String) : s ++ "" = s := by
  cases s; simp [String.append]

/-! ## Claims -/

/-- C1: For every method, path, query string, body and timestamp, each
variant's `generate_signature` returns the lowercase-hex HMAC-SHA256, keyed by
the configured secret, of the UTF-8 bytes of `method ++ signedPathUrl ++
body-serialization`, where the signed path-url appends `?{query}&timestamp={ts}`
(non-empty query) or `?timestamp={ts}` (empty query) to the path, and the
compact JSON serialization of the body is appended when a body is present
(`api/positions.py`'s variant takes no body). -/
theorem C1_generate_signature_hmac (secret method path query : String) (ts : Nat)
    (clk : List Nat) (body : Option (List (String × Json))) :
    Server.generate_signature secret (ts :: clk) method path query (pyBodyStr body)
      = (bytesToHex (hmacSha256 (utf8Bytes secret)
          (utf8Bytes (method ++ signedPathUrl path query ts ++ pyBodyStr body))), ts, clk)
    ∧ ApiIndex.generate_signature secret (ts :: clk) method path query (pyBodyStr body)
      = (bytesToHex (hmacSha256 (utf8Bytes secret)
          (utf8Bytes (method ++ signedPathUrl path query ts ++ pyBodyStr body))), ts, clk)
    ∧ Positions.generate_signature secret (ts :: clk) method path query
      = (bytesToHex (hmacSha256 (utf8Bytes secret)
          (utf8Bytes (method ++ signedPathUrl path query ts))), ts, clk) := by
  refine ⟨?_, ?_, ?_⟩ <;>
    simp only [Server.generate_signature, ApiIndex.generate_signature,
      Positions.generate_signature, signedPathUrl, hmacSha256Hex, List.headD, List.tail] <;>
    by_cases hq : query = "" <;>
    by_cases hb : pyBodyStr body = "" <;>
    simp [hq, hb, str_append_empty, String.append_assoc]

/-- The timestamp a signing call returns is the clock reading it consumed. -/
theorem Server.generate_signature_clock_server (secret method path qs body : String)
    (ts : Nat) (clk : List Nat) :
    (Server.generate_signature secret (ts :: clk) method path qs body).2 = (ts, clk) := rfl

/-- As `Server.generate_signature_clock_server`, for `api/index.py`. -/
theorem ApiIndex.generate_signature_clock_index (secret method path qs body : String)
    (ts : Nat) (clk : List Nat) :
    (ApiIndex.generate_signature secret (ts :: clk) method path qs body).2 = (ts, clk) := rfl

/-- As `Server.generate_signature_clock_server`, for `api/positions.py`. -/
theorem Positions.generate_signature_clock_positions (secret method path qs : String)
    (ts : Nat) (clk : List Nat) :
    (Positions.generate_signature secret (ts :: clk) method path qs).2 = (ts, clk) := rfl

/-- C2: In every variant of `pionex_request` (with credentials configured, and,
for `server.py`, a supported method), exactly one timestamp is read from the
clock; the single upstream request carries that timestamp in its URL, and its
signature header is the one `generate_signature` produced over the very same
clock reading. -/
theorem C2_single_timestamp (env : Env) (ts : Nat) (clk : List Nat)
    (upstream : String → UpstreamResult) (method endpoint : String) (params : List Param)
    (hK : env.apiKey ≠ "") (hS : env.apiSecret ≠ "")
    (hm : method = "GET" ∨ method = "POST" ∨ method = "DELETE") :
    (Server.pionex_request env (ts :: clk) upstream method endpoint params none).2
      = (clk, [⟨requestUrl endpoint (buildQueryString params) ts, method, env.apiKey,
               (Server.generate_signature env.apiSecret (ts :: clk) method endpoint
                 (buildQueryString params) "").1⟩])
    ∧ (ApiIndex.pionex_request env (ts :: clk) upstream method endpoint params).2
      = (clk, [⟨requestUrl endpoint (buildQueryString params) ts, method, env.apiKey,
               (ApiIndex.generate_signature env.apiSecret (ts :: clk) method endpoint
                 (buildQueryString params) "").1⟩])
    ∧ (Positions.pionex_request env (ts :: clk) upstream endpoint params).2
      = (clk, [⟨requestUrl endpoint (buildQueryString params) ts, "GET", env.apiKey,
               (Positions.generate_signature env.apiSecret (ts :: clk) "GET" endpoint
                 (buildQueryString params)).1⟩])
    ∧ (Server.generate_signature env.apiSecret (ts :: clk) method endpoint
        (buildQueryString params) "").2.1 = ts
    ∧ (ApiIndex.generate_signature env.apiSecret (ts :: clk) method endpoint
        (buildQueryString params) "").2.1 = ts
    ∧ (Positions.generate_signature env.apiSecret (ts :: clk) "GET" endpoint
        (buildQueryString params)).2.1 = ts := by
  refine ⟨?_, ?_, ?_, rfl, rfl, rfl⟩ <;>
    simp only [Server.pionex_request, ApiIndex.pionex_request, Positions.pionex_request,
      requestUrl, signedPathUrl, pyBodyStr, hK, hS] <;>
    by_cases hq : buildQueryString params = "" <;>
    rcases hm with hm | hm | hm <;>
    simp [hm, hq, Server.generate_signature_clock_server, ApiIndex.generate_signature_clock_index,
      Positions.generate_signature_clock_positions, String.append_assoc]

/-- C3: The canonical query string lists the parameters in lexicographic key
order, joined as `key=value` with `&`, skipping parameters whose value is
absent; two parameter lists that are permutations of each other (with distinct
keys, the dict invariant) produce the identical string. -/
theorem C3_canonical_query (p₁ p₂ : List Param) (hperm : p₁.Perm p₂)
    (hnodup : (p₁.map Prod.fst).Nodup) :
    buildQueryString p₁ = buildQueryString p₂
    ∧ List.Sorted paramLe (sortParams p₁)
    ∧ (sortParams p₁).Perm p₁
    ∧ buildQueryString p₁ = String.intercalate "&"
        ((sortParams p₁).filterMap fun kv => kv.2.map fun v => kv.1 ++ "=" ++ v) := by
  have hpne₁ : List.Pairwise (fun a b : Param => a.1 ≠ b.1) p₁ :=
    List.pairwise_map.mp hnodup
  have hsym : ∀ {x y : Param}, x.1 ≠ y.1 → y.1 ≠ x.1 := fun h => h.symm
  have hpne₂ : List.Pairwise (fun a b : Param => a.1 ≠ b.1) p₂ :=
    hpne₁.perm hperm hsym
  have hs₁ : List.Pairwise (fun a b : Param => a.1 ≠ b.1) (sortParams p₁) :=
    hpne₁.perm (List.perm_insertionSort paramLe p₁).symm hsym
  have hs₂ : List.Pairwise (fun a b : Param => a.1 ≠ b.1) (sortParams p₂) :=
    hpne₂.perm (List.perm_insertionSort paramLe p₂).symm hsym
  have heq : sortParams p₁ = sortParams p₂ := by
    haveI : IsAntisymm Param (fun a b : Param => paramLe a b ∧ a.1 ≠ b.1) :=
      ⟨fun _ _ h1 h2 => absurd (strLe_antisymm h1.1 h2.1) h1.2⟩
    refine List.eq_of_perm_of_sorted
      (r := fun a b : Param => paramLe a b ∧ a.1 ≠ b.1) ?_ ?_ ?_
    · exact ((List.perm_insertionSort paramLe p₁).trans hperm).trans
        (List.perm_insertionSort paramLe p₂).symm
    · exact (List.sorted_insertionSort paramLe p₁).and hs₁
    · exact (List.sorted_insertionSort paramLe p₂).and hs₂
  exact ⟨by rw [buildQueryString, buildQueryString, heq],
         List.sorted_insertionSort paramLe p₁,
         List.perm_insertionSort paramLe p₁, rfl⟩

/-- C3 witness: two concrete two-element parameter maps with swapped insertion
order canonicalize to the same query string. -/
theorem C3_canonical_query_witness :
    (([("b", some "2"), ("a", some "1")] : List Param).Perm
       [("a", some "1"), ("b", some "2")]
     ∧ (([("b", some "2"), ("a", some "1")] : List Param).map Prod.fst).Nodup)
    ∧ buildQueryString [("b", some "2"), ("a", some "1")]
        = buildQueryString [("a", some "1"), ("b", some "2")] :=
  ⟨⟨by decide, by decide⟩,
   (C3_canonical_query [("b", some "2"), ("a", some "1")]
     [("a", some "1"), ("b", some "2")] (by decide) (by decide)).1⟩

/-- C6: `GET /api/health` reports `configured` exactly when both credential
strings are non-empty — in the Flask app and in the serverless handler — and
issues no upstream request in either case (and reads no clock in the
serverless handler). -/
theorem C6_health_configured (env : Env) (clock : List Nat)
    (upstream : String → UpstreamResult) :
    (Server.health_check env).2 = []
    ∧ pyGet (Server.health_check env).1 "configured"
        = Json.bool (env.apiKey != "" && env.apiSecret != "")
    ∧ ApiIndex.handler env clock upstream "/api/health" "GET"
        = ((200, Json.obj [("status", Json.str "ok"),
                           ("configured", Json.bool (env.apiKey != "" && env.apiSecret != "")),
                           ("result", Json.bool true)]), clock, [])
    ∧ ((env.apiKey != "" && env.apiSecret != "") = true
        ↔ (env.apiKey ≠ "" ∧ env.apiSecret ≠ "")) := by
  refine ⟨rfl, rfl, ?_, by simp⟩
  simp [ApiIndex.handler]

/-- C2 witness: a concrete configured environment, clock `[5]` and a failing
upstream still issue exactly one request, whose URL and signature share the
single timestamp 5. -/
theorem C2_single_timestamp_witness :
    (("k" : String) ≠ "" ∧ ("s" : String) ≠ "")
    ∧ (Server.pionex_request ⟨"k", "s"⟩ [5] (fun _ => UpstreamResult.netError "down")
         "GET" "/api/v1/x" [] none).2
        = ([], [⟨requestUrl "/api/v1/x" (buildQueryString []) 5, "GET", "k",
                 (Server.generate_signature "s" [5] "GET" "/api/v1/x"
                   (buildQueryString []) "").1⟩]) :=
  ⟨⟨by decide, by decide⟩,
   (C2_single_timestamp ⟨"k", "s"⟩ 5 [] (fun _ => UpstreamResult.netError "down")
      "GET" "/api/v1/x" [] (by decide) (by decide) (Or.inl rfl)).1⟩

/-- C4 counterexample: the claim quantifies over *every* variant, but
`server.py`'s `pionex_request` returns `response.json()` without inspecting
the status, so a 404 whose body is `{"msg": "oops"}` reaches the caller
unchanged — no `result: false`, no error message with the status embedded. -/
theorem C4_counterexample :
    (Server.pionex_request ⟨"k", "s"⟩ [5]
       (fun _ => UpstreamResult.response 404 (Json.obj [("msg", Json.str "oops")]))
       "GET" "/api/v1/x" [] none).1
      = Json.obj [("msg", Json.str "oops")]
    ∧ pyGet (Server.pionex_request ⟨"k", "s"⟩ [5]
        (fun _ => UpstreamResult.response 404 (Json.obj [("msg", Json.str "oops")]))
        "GET" "/api/v1/x" [] none).1 "result" = Json.null
    ∧ pyGet (Server.pionex_request ⟨"k", "s"⟩ [5]
        (fun _ => UpstreamResult.response 404 (Json.obj [("msg", Json.str "oops")]))
        "GET" "/api/v1/x" [] none).1 "error" = Json.null := by
  refine ⟨rfl, rfl, rfl⟩

/-- C4 amended: in the two `urllib` variants (`api/index.py` and
`api/positions.py`) a non-2xx upstream status yields
`{"error": "HTTP {status}: {body text}", "result": false}`; the Flask variant
(`server.py`) instead passes the parsed upstream body through unchanged. -/
theorem C4_upstream_error (env : Env) (ts : Nat) (clk : List Nat) (st : Nat) (body : Json)
    (method endpoint : String) (params : List Param)
    (hK : env.apiKey ≠ "") (hS : env.apiSecret ≠ "") (hst : st < 200 ∨ 300 ≤ st) :
    (ApiIndex.pionex_request env (ts :: clk) (fun _ => UpstreamResult.response st body)
       method endpoint params).1
      = Json.obj [("error", Json.str ("HTTP " ++ toString st ++ ": " ++ jsonCompact body)),
                  ("result", Json.bool false)]
    ∧ (Positions.pionex_request env (ts :: clk) (fun _ => UpstreamResult.response st body)
        endpoint params).1
      = Json.obj [("error", Json.str ("HTTP " ++ toString st ++ ": " ++ jsonCompact body)),
                  ("result", Json.bool false)]
    ∧ ((Server.pionex_request env (ts :: clk) (fun _ => UpstreamResult.response st body)
         method endpoint params none).1 = body
       ∨ ¬ (method = "GET" ∨ method = "POST" ∨ method = "DELETE")) := by
  have h2 : ¬ (200 ≤ st ∧ st < 300) := by omega
  by_cases hm : method = "GET" ∨ method = "POST" ∨ method = "DELETE"
  · refine ⟨?_, ?_, Or.inl ?_⟩ <;>
      simp [ApiIndex.pionex_request, Positions.pionex_request, Server.pionex_request,
        hK, hS, h2, hm]
  · refine ⟨?_, ?_, Or.inr hm⟩ <;>
      simp [ApiIndex.pionex_request, Positions.pionex_request, hK, hS, h2]

/-- C4 witness: a concrete 404 with body `"oops"` produces the wrapped error
envelope in the `api/index.py` variant. -/
theorem C4_upstream_error_witness :
    (("k" : String) ≠ "" ∧ ((404 : Nat) < 200 ∨ (300 : Nat) ≤ 404))
    ∧ (ApiIndex.pionex_request ⟨"k", "s"⟩ [7]
         (fun _ => UpstreamResult.response 404 (Json.str "oops")) "GET" "/a" []).1
        = Json.obj [("error",
                     Json.str ("HTTP " ++ toString 404 ++ ": " ++ jsonCompact (Json.str "oops"))),
                    ("result", Json.bool false)] :=
  ⟨⟨by decide, by omega⟩,
   (C4_upstream_error ⟨"k", "s"⟩ 7 [] 404 (Json.str "oops") "GET" "/a" []
      (by decide) (by decide) (by omega)).1⟩

/-- C5 counterexample: the claim requires `result: false` in the
configuration-error envelope of *every* variant, but `server.py` returns only
`{"error": "API credentials not configured"}` — the `result` key is absent.
(The short-circuit itself — no upstream call — does hold in every variant.) -/
theorem C5_counterexample :
    (Server.pionex_request ⟨"", "s"⟩ [5] (fun _ => UpstreamResult.netError "down")
       "GET" "/a" [] none).1
      = Json.obj [("error", Json.str "API credentials not configured")]
    ∧ pyGet (Server.pionex_request ⟨"", "s"⟩ [5] (fun _ => UpstreamResult.netError "down")
        "GET" "/a" [] none).1 "result" = Json.null := by
  exact ⟨rfl, rfl⟩

/-- C5 amended: with either credential empty, every variant of
`pionex_request` short-circuits — no upstream request, no clock read — and
returns a configuration-error envelope with a human-readable `error` string;
the two serverless variants include `result: false`, the Flask variant's
envelope carries only the `error` field. -/
theorem C5_config_error (env : Env) (clock : List Nat) (upstream : String → UpstreamResult)
    (method endpoint : String) (params : List Param) (body : Option (List (String × Json)))
    (h : env.apiKey = "" ∨ env.apiSecret = "") :
    Server.pionex_request env clock upstream method endpoint params body
      = (Json.obj [("error", Json.str "API credentials not configured")], clock, [])
    ∧ ApiIndex.pionex_request env clock upstream method endpoint params
      = (Json.obj [("error", Json.str "API credentials not configured"),
                   ("result", Json.bool false)], clock, [])
    ∧ Positions.pionex_request env clock upstream endpoint params
      = (Json.obj [("error", Json.str "API credentials not configured"),
                   ("result", Json.bool false)], clock, []) := by
  refine ⟨?_, ?_, ?_⟩ <;>
    simp [Server.pionex_request, ApiIndex.pionex_request, Positions.pionex_request, h]

/-- C5 witness: both credentials empty at concrete inputs. -/
theorem C5_config_error_witness :
    (("" : String) = "" ∨ ("" : String) = "")
    ∧ Server.pionex_request ⟨"", ""⟩ [5] (fun _ => UpstreamResult.netError "down")
        "GET" "/a" [] none
      = (Json.obj [("error", Json.str "API credentials not configured")], [5], []) :=
  ⟨Or.inl rfl,
   (C5_config_error ⟨"", ""⟩ [5] (fun _ => UpstreamResult.netError "down")
      "GET" "/a" [] none (Or.inl rfl)).1⟩

/-! ### Helper lemmas for the bot store (string keys) -/

theorem jeq_str_iff (x : Json) (n : String) : jeq x (Json.str n) = true ↔ x = Json.str n := by
  cases x <;> simp [jeq]

theorem jeq_str_self (n : String) : jeq (Json.str n) (Json.str n) = true := by
  simp [jeq]

theorem jeq_str_symm (x : Json) (n : String) : jeq (Json.str n) x = jeq x (Json.str n) := by
  cases x <;> simp [jeq]
  exact eq_comm

theorem Server.storeGet_storeSet_self (s : Server.BotStore) (n : String)
    (v : List (String × Json)) :
    Server.storeGet (Server.storeSet s (Json.str n) v) (Json.str n) = some v := by
  induction s with
  | nil => simp [Server.storeSet, Server.storeGet, jeq_str_self]
  | cons e rest ih =>
    obtain ⟨k, w⟩ := e
    by_cases h : jeq k (Json.str n) = true
    · simp [Server.storeSet, Server.storeGet, h, jeq_str_self]
    · simp [Server.storeSet, Server.storeGet, h, ih]

theorem Server.mem_storeSet_self (s : Server.BotStore) (k : Json)
    (v : List (String × Json)) : (k, v) ∈ Server.storeSet s k v := by
  induction s with
  | nil => simp [Server.storeSet]
  | cons e rest ih =>
    obtain ⟨k₀, w⟩ := e
    by_cases h : jeq k₀ k = true
    · simp [Server.storeSet, h]
    · simp only [Server.storeSet, h]
      exact List.mem_cons_of_mem _ ih

theorem Server.mem_storeSet (s : Server.BotStore) (key : Json) (v : List (String × Json))
    (e : Json × List (String × Json)) (he : e ∈ Server.storeSet s key v) :
    e ∈ s ∨ e = (key, v) := by
  induction s with
  | nil => simp [Server.storeSet] at he; exact Or.inr he
  | cons e₀ rest ih =>
    obtain ⟨k₀, w⟩ := e₀
    by_cases h : jeq k₀ key = true
    · simp only [Server.storeSet, h, if_pos] at he
      rcases List.mem_cons.mp he with h1 | h1
      · exact Or.inr h1
      · exact Or.inl (List.mem_cons_of_mem _ h1)
    · simp only [Server.storeSet, h] at he
      rcases List.mem_cons.mp he with h1 | h1
      · exact Or.inl (h1 ▸ List.mem_cons_self _ _)
      · rcases ih h1 with h2 | h2
        · exact Or.inl (List.mem_cons_of_mem _ h2)
        · exact Or.inr h2

theorem Server.keysNodup_storeSet (s : Server.BotStore) (n : String)
    (v : List (String × Json)) (hnd : Server.keysNodup s) :
    Server.keysNodup (Server.storeSet s (Json.str n) v) := by
  induction s with
  | nil => simp [Server.storeSet, Server.keysNodup]
  | cons e rest ih =>
    obtain ⟨k₀, w⟩ := e
    rw [Server.keysNodup, List.pairwise_cons] at hnd
    obtain ⟨hhead, hrest⟩ := hnd
    by_cases h : jeq k₀ (Json.str n) = true
    · have hk : k₀ = Json.str n := (jeq_str_iff _ _).mp h
    -- the head is replaced in place; the tail's keys are untouched
      subst hk
      rw [Server.storeSet]
      simp only [jeq_str_self, if_pos]
      rw [Server.keysNodup, List.pairwise_cons]
      exact ⟨hhead, hrest⟩
    · rw [Server.storeSet]
      simp only [h, if_neg, Bool.false_eq_true, not_false_iff]
      rw [Server.keysNodup, List.pairwise_cons]
      refine ⟨?_, ih hrest⟩
      intro e he
      rcases Server.mem_storeSet rest (Json.str n) v e he with h1 | h1
      · exact hhead e h1
      · rw [h1]
        simpa using h

theorem Server.countKey_eq_zero (s : Server.BotStore) (n : String)
    (h : ∀ e ∈ s, jeq e.1 (Json.str n) = false) : Server.countKey s (Json.str n) = 0 := by
  rw [Server.countKey, List.length_eq_zero, List.filter_eq_nil_iff]
  intro e he
  simp [h e he]

theorem Server.countKey_storeSet (s : Server.BotStore) (n : String)
    (v : List (String × Json)) (hnd : Server.keysNodup s) :
    Server.countKey (Server.storeSet s (Json.str n) v) (Json.str n) = 1 := by
  induction s with
  | nil => simp [Server.storeSet, Server.countKey, jeq_str_self]
  | cons e rest ih =>
    obtain ⟨k₀, w⟩ := e
    rw [Server.keysNodup, List.pairwise_cons] at hnd
    obtain ⟨hhead, hrest⟩ := hnd
    by_cases h : jeq k₀ (Json.str n) = true
    · have hk : k₀ = Json.str n := (jeq_str_iff _ _).mp h
      subst hk
      have hzero : Server.countKey rest (Json.str n) = 0 := by
        refine Server.countKey_eq_zero rest n fun e he => ?_
        rw [← jeq_str_symm]
        exact hhead e he
      rw [Server.storeSet]
      simp only [jeq_str_self, if_pos]
      rw [Server.countKey, List.filter_cons]
      simp only [jeq_str_self, if_pos]
      rw [List.length_cons]
      have : (List.filter (fun e => jeq e.1 (Json.str n)) rest).length = 0 := hzero
      omega
    · rw [Server.storeSet]
      simp only [h, if_neg, Bool.false_eq_true, not_false_iff]
      rw [Server.countKey, List.filter_cons]
      simp only [h]
      exact ih hrest

theorem Server.storeGet_eq_none (s : Server.BotStore) (n : String)
    (h : ∀ e ∈ s, jeq e.1 (Json.str n) = false) :
    Server.storeGet s (Json.str n) = none := by
  induction s with
  | nil => rfl
  | cons e rest ih =>
    obtain ⟨k₀, w⟩ := e
    rw [Server.storeGet]
    have hk : jeq k₀ (Json.str n) = false := h _ (List.mem_cons_self _ _)
    simp only [hk, Bool.false_eq_true, if_neg, not_false_iff]
    exact ih fun e he => h e (List.mem_cons_of_mem _ he)

theorem Server.storeDel_eq_filter (s : Server.BotStore) (n : String)
    (hnd : Server.keysNodup s) :
    Server.storeDel s (Json.str n) = s.filter fun e => !(jeq e.1 (Json.str n)) := by
  induction s with
  | nil => rfl
  | cons e rest ih =>
    obtain ⟨k₀, w⟩ := e
    rw [Server.keysNodup, List.pairwise_cons] at hnd
    obtain ⟨hhead, hrest⟩ := hnd
    by_cases h : jeq k₀ (Json.str n) = true
    · have hk : k₀ = Json.str n := (jeq_str_iff _ _).mp h
      subst hk
      rw [Server.storeDel]
      simp only [jeq_str_self, if_pos, List.filter_cons, Bool.not_true, Bool.false_eq_true,
        if_neg, not_false_iff, if_false]
      rw [eq_comm, List.filter_eq_self]
      intro e he
      rw [Bool.not_eq_true', ← jeq_str_symm]
      exact hhead e he
    · rw [Server.storeDel, List.filter_cons]
      simp only [h, Bool.false_eq_true, if_neg, not_false_iff, Bool.not_false, if_pos]
      rw [ih hrest]

theorem Server.storeWF_storeSet (s : Server.BotStore) (k : Json)
    (v : List (String × Json)) (hs : Server.storeWF s) (hv : Server.WFrecord k v) :
    Server.storeWF (Server.storeSet s k v) := by
  intro e he
  rcases Server.mem_storeSet s k v e he with h | h
  · exact hs e h
  · rw [h]; exact hv

theorem Server.mem_storeDel (s : Server.BotStore) (key : Json)
    (e : Json × List (String × Json)) (he : e ∈ Server.storeDel s key) : e ∈ s := by
  induction s with
  | nil => simp [Server.storeDel] at he
  | cons e₀ rest ih =>
    obtain ⟨k₀, w⟩ := e₀
    by_cases h : jeq k₀ key = true
    · rw [Server.storeDel] at he
      simp only [h, if_pos] at he
      exact List.mem_cons_of_mem _ he
    · rw [Server.storeDel] at he
      simp only [h, Bool.false_eq_true, if_neg, not_false_iff] at he
      rcases List.mem_cons.mp he with h1 | h1
      · exact h1 ▸ List.mem_cons_self _ _
      · exact List.mem_cons_of_mem _ (ih h1)

theorem Server.storeWF_storeDel (s : Server.BotStore) (key : Json)
    (hs : Server.storeWF s) : Server.storeWF (Server.storeDel s key) :=
  fun e he => hs e (Server.mem_storeDel s key e he)

/-- Unfolding `update_bot` on a payload whose `name` is the non-empty string
`n`. -/
theorem Server.update_bot_named (s : Server.BotStore) (now : Nat)
    (data : List (String × Json)) (n : String)
    (hn : lookupField data "name" = some (Json.str n)) (hne : n ≠ "") :
    Server.update_bot s now data
      = (Server.storeSet s (Json.str n) (Server.mkBotRecord data (Json.str n) now),
         ⟨200, Json.obj [("result", Json.bool true),
                         ("data", Json.obj (Server.mkBotRecord data (Json.str n) now))]⟩) := by
  simp [Server.update_bot, hn, truthy, hne]

/-- C7: `POST /api/bots` with a missing or empty `name` is a 400 client error
leaving the store unchanged; with a non-empty string name it upserts the record
keyed by that name — every omitted field filled with its default (`pair` `""`,
`leverage` 1, `investment`/`profit`/`profitPercent`/`lastPrice`/`markPrice` 0,
`liqPrice` `null`), `updatedAt` stamped with the current time — and a
subsequent `GET /api/bots` lists that record. -/
theorem C7_post_bot (s : Server.BotStore) (now : Nat) (data : List (String × Json)) :
    ((lookupField data "name" = none ∨ lookupField data "name" = some (Json.str "")) →
      Server.update_bot s now data
        = (s, ⟨400, Json.obj [("error", Json.str "Bot name required")]⟩))
    ∧ ∀ n : String, n ≠ "" → lookupField data "name" = some (Json.str n) →
        (Server.update_bot s now data).2
          = ⟨200, Json.obj [("result", Json.bool true),
                            ("data", Json.obj (Server.mkBotRecord data (Json.str n) now))]⟩
        ∧ Server.storeGet (Server.update_bot s now data).1 (Json.str n)
            = some (Server.mkBotRecord data (Json.str n) now)
        ∧ Json.obj (Server.mkBotRecord data (Json.str n) now)
            ∈ Server.botsOf (Server.update_bot s now data).1
        ∧ Server.get_bots (Server.update_bot s now data).1
            = ⟨200, Json.obj [("result", Json.bool true),
                ("data", Json.obj [("bots",
                  Json.arr (Server.botsOf (Server.update_bot s now data).1))])]⟩
        ∧ Server.mkBotRecord data (Json.str n) now
            = [("name", Json.str n),
               ("pair", jget data "pair" (Json.str "")),
               ("leverage", jget data "leverage" (Json.num 1)),
               ("investment", jget data "investment" (Json.num 0)),
               ("profit", jget data "profit" (Json.num 0)),
               ("profitPercent", jget data "profitPercent" (Json.num 0)),
               ("lastPrice", jget data "lastPrice" (Json.num 0)),
               ("markPrice", jget data "markPrice" (Json.num 0)),
               ("liqPrice", jget data "liqPrice" Json.null),
               ("updatedAt", Json.num (now : Int))] := by
  constructor
  · intro h
    rcases h with h | h <;> simp [Server.update_bot, h, truthy]
  · intro n hne hn
    rw [Server.update_bot_named s now data n hn hne]
    refine ⟨rfl, Server.storeGet_storeSet_self s n _, ?_, rfl, rfl⟩
    exact List.mem_map_of_mem _ (Server.mem_storeSet_self s (Json.str n) _)

/-- C7 witness: posting `{name: "bot1", pair: "BTCUSDT", leverage: 5}` into the
empty store makes the record retrievable under `"bot1"`. -/
theorem C7_post_bot_witness :
    (("bot1" : String) ≠ ""
     ∧ lookupField [("name", Json.str "bot1"), ("pair", Json.str "BTCUSDT"),
         ("leverage", Json.num 5)] "name" = some (Json.str "bot1"))
    ∧ Server.storeGet (Server.update_bot [] 42 [("name", Json.str "bot1"),
        ("pair", Json.str "BTCUSDT"), ("leverage", Json.num 5)]).1 (Json.str "bot1")
      = some (Server.mkBotRecord [("name", Json.str "bot1"), ("pair", Json.str "BTCUSDT"),
          ("leverage", Json.num 5)] (Json.str "bot1") 42) :=
  ⟨⟨by decide, rfl⟩,
   ((C7_post_bot [] 42 [("name", Json.str "bot1"), ("pair", Json.str "BTCUSDT"),
       ("leverage", Json.num 5)]).2 "bot1" (by decide) rfl).2.1⟩

/-- C8: posting twice under the same name overwrites: the final store has
exactly one entry for that name, holding the second post's record, whose
`updatedAt` is the second timestamp — strictly greater than the first post's
`updatedAt` since the clock strictly advances between the two requests. -/
theorem C8_overwrite (s : Server.BotStore) (d₁ d₂ : List (String × Json)) (n : String)
    (now₁ now₂ : Nat) (hnd : Server.keysNodup s) (hne : n ≠ "")
    (h₁ : lookupField d₁ "name" = some (Json.str n))
    (h₂ : lookupField d₂ "name" = some (Json.str n))
    (hlt : now₁ < now₂) :
    Server.countKey ((Server.update_bot (Server.update_bot s now₁ d₁).1 now₂ d₂).1)
        (Json.str n) = 1
    ∧ Server.storeGet ((Server.update_bot (Server.update_bot s now₁ d₁).1 now₂ d₂).1)
        (Json.str n) = some (Server.mkBotRecord d₂ (Json.str n) now₂)
    ∧ Server.storeGet ((Server.update_bot s now₁ d₁).1) (Json.str n)
        = some (Server.mkBotRecord d₁ (Json.str n) now₁)
    ∧ lookupField (Server.mkBotRecord d₂ (Json.str n) now₂) "updatedAt"
        = some (Json.num (now₂ : Int))
    ∧ lookupField (Server.mkBotRecord d₁ (Json.str n) now₁) "updatedAt"
        = some (Json.num (now₁ : Int))
    ∧ (now₁ : Int) < (now₂ : Int) := by
  rw [Server.update_bot_named s now₁ d₁ n h₁ hne]
  rw [Server.update_bot_named _ now₂ d₂ n h₂ hne]
  refine ⟨?_, Server.storeGet_storeSet_self _ n _, Server.storeGet_storeSet_self s n _,
    rfl, rfl, by exact_mod_cast hlt⟩
  exact Server.countKey_storeSet _ n _ (Server.keysNodup_storeSet s n _ hnd)

/-- C8 witness: two posts of `{name: "b"}` at times 1 and 2 into the empty
store leave exactly one `"b"` entry. -/
theorem C8_overwrite_witness :
    (("b" : String) ≠ "" ∧ (1 : Nat) < 2)
    ∧ Server.countKey ((Server.update_bot
        (Server.update_bot [] 1 [("name", Json.str "b")]).1 2 [("name", Json.str "b")]).1)
        (Json.str "b") = 1 :=
  ⟨⟨by decide, by decide⟩,
   (C8_overwrite [] [("name", Json.str "b")] [("name", Json.str "b")] "b" 1 2
      List.Pairwise.nil (by decide) rfl rfl (by decide)).1⟩

/-- C9: deleting an absent name is a 404 leaving the store unchanged; deleting
a present name returns `result: true` and removes exactly that entry — the
survivors are precisely the entries with a different key, and a subsequent
`GET /api/bots` lists no record named `n`. -/
theorem C9_delete_bot (s : Server.BotStore) (n : String) (hnd : Server.keysNodup s)
    (hwf : Server.storeWF s) :
    (Server.storeGet s (Json.str n) = none →
      Server.delete_bot s n = (s, ⟨404, Json.obj [("error", Json.str "Bot not found")]⟩))
    ∧ ∀ r, Server.storeGet s (Json.str n) = some r →
        (Server.delete_bot s n).2 = ⟨200, Json.obj [("result", Json.bool true)]⟩
        ∧ (Server.delete_bot s n).1 = s.filter (fun e => !(jeq e.1 (Json.str n)))
        ∧ Server.storeGet (Server.delete_bot s n).1 (Json.str n) = none
        ∧ (∀ e ∈ s, jeq e.1 (Json.str n) = false → e ∈ (Server.delete_bot s n).1)
        ∧ ∀ r', Json.obj r' ∈ Server.botsOf (Server.delete_bot s n).1 →
            lookupField r' "name" ≠ some (Json.str n) := by
  constructor
  · intro h
    simp [Server.delete_bot, h]
  · intro r h
    have hdel : (Server.delete_bot s n).1 = s.filter (fun e => !(jeq e.1 (Json.str n))) := by
      simp only [Server.delete_bot, h]
      exact Server.storeDel_eq_filter s n hnd
    refine ⟨by simp [Server.delete_bot, h], hdel, ?_, ?_, ?_⟩
    · rw [hdel]
      refine Server.storeGet_eq_none _ n fun e he => ?_
      have := List.of_mem_filter he
      rwa [Bool.not_eq_true'] at this
    · intro e he hk
      rw [hdel]
      exact List.mem_filter.mpr ⟨he, by simp [hk]⟩
    · intro r' hr' heq
      rw [hdel] at hr'
      obtain ⟨e, he, hobj⟩ := List.mem_map.mp hr'
      have hr2 : e.2 = r' := by
        injection hobj
      have hein : e ∈ s := List.mem_of_mem_filter he
      have hkey : jeq e.1 (Json.str n) = false := by
        have := List.of_mem_filter he
        rwa [Bool.not_eq_true'] at this
      have hname : lookupField e.2 "name" = some e.1 := (hwf e hein).2
      rw [hr2, heq] at hname
      have : e.1 = Json.str n := by injection hname with h; exact h.symm
      rw [this, jeq_str_self] at hkey
      simp at hkey

/-- C9 witness: with exactly one stored bot `"b"`, the delete succeeds. -/
theorem C9_delete_bot_witness :
    (Server.delete_bot
       [(Json.str "b", Server.mkBotRecord [("name", Json.str "b")] (Json.str "b") 1)] "b").2
      = ⟨200, Json.obj [("result", Json.bool true)]⟩ :=
  ((C9_delete_bot
      [(Json.str "b", Server.mkBotRecord [("name", Json.str "b")] (Json.str "b") 1)] "b"
      (List.pairwise_singleton _ _)
      (by intro e he; rw [List.mem_singleton] at he; subst he; exact ⟨rfl, rfl⟩)).2
    (Server.mkBotRecord [("name", Json.str "b")] (Json.str "b") 1) rfl).1

/-- C10: every bot-store operation preserves the invariant that a stored
record has exactly the ten fields, keyed consistently (`name` field equals the
store key), with any extra payload fields dropped; `GET /api/bots` only emits
stored (hence well-formed) records. -/
theorem C10_store_invariant (s : Server.BotStore) (now : Nat)
    (data : List (String × Json)) (n : String) (bn : Json) (hwf : Server.storeWF s) :
    Server.storeWF (Server.update_bot s now data).1
    ∧ Server.storeWF (Server.delete_bot s n).1
    ∧ (Server.mkBotRecord data bn now).map Prod.fst = Server.botFieldNames
    ∧ lookupField (Server.mkBotRecord data bn now) "name" = some bn
    ∧ ∀ r, Json.obj r ∈ Server.botsOf s → ∃ k, (k, r) ∈ s ∧ Server.WFrecord k r := by
  refine ⟨?_, ?_, rfl, rfl, ?_⟩
  · by_cases ht : truthy ((lookupField data "name").getD Json.null) = true
    · simp only [Server.update_bot, ht, if_pos]
      exact Server.storeWF_storeSet s _ _ hwf ⟨rfl, rfl⟩
    · simp only [Server.update_bot, ht, if_neg, not_false_iff]
      exact hwf
  · rcases hs : Server.storeGet s (Json.str n) with _ | r
    · simp only [Server.delete_bot, hs]
      exact hwf
    · simp only [Server.delete_bot, hs]
      exact Server.storeWF_storeDel s _ hwf
  · intro r hr
    obtain ⟨e, he, hobj⟩ := List.mem_map.mp hr
    have hr2 : e.2 = r := by injection hobj
    exact ⟨e.1, by rw [← hr2]; exact he, by rw [← hr2]; exact hwf e he⟩

/-- C10 witness: the freshly built record carries exactly the ten canonical
field names. -/
theorem C10_store_invariant_witness :
    (Server.mkBotRecord [] Json.null 0).map Prod.fst = Server.botFieldNames :=
  (C10_store_invariant [] 0 [] "a" Json.null (by intro e he; cases he)).2.2.1

